import Mathlib

/-!
# Verification of the omg action orchestration and execution engine

Shallow embedding, in Lean 4, of the parts of the repository that the
verified properties are about:

* `core/object/base_start.go` — the resource action orchestrator
  (`Base.lockedStart`, `Base.abortStart`, `Base.abortWorker`,
  `Base.masterStart`, `Base.slaveStart`);
* `core/object/selection.go` — the selection dispatcher
  (`Selection.Expand`, `Selection.daemonExpand`, `Selection.Action`);
* `util/command` — the process executor (`T.Stdout`, `T.Stderr`,
  `stripFistByte`, the goroutine bookkeeping of `T.Start` and `T.Wait`);
* `util/statusbus` — the status bus lifecycle (its implementation is
  known here through its unit tests and through the specification, so it
  is modelled from the specification's words).

Go slices of bytes become `List Nat`, goroutine fan-out/fan-in becomes
explicit lists of the values sent over the channels (one element per
send, collected in program order), and fallible calls return `Option` or
`Except`.
-/

namespace Omg

/-! ## Resource model (`core/resource`)

A resource driver exposes `Start() error` and optionally implements the
`Aborter` interface (`Abort() bool`).  A driver value is summarised by
the observable behaviour of those two methods during one action:

* `aborter = none` — the driver does not implement `resource.Aborter`
  (the type assertion `r.(resource.Aborter)` fails);
* `aborter = some b` — it implements `Aborter` and `Abort()` returns `b`;
* `startResult = none` — `Start()` returns `nil`;
* `startResult = some e` — `Start()` returns the error `e`.
-/

structure Driver where
  rid : String
  aborter : Option Bool
  startResult : Option String
deriving Repr, DecidableEq

/-! ## `core/object/base_start.go` -/

/-- `Base.abortWorker`: the value one worker goroutine sends on the vote
channel `q` for resource `r` — `false` when the driver does not implement
`resource.Aborter`, otherwise the value returned by `Abort()`. -/
def abortWorkerVote (r : Driver) : Bool :=
  match r.aborter with
  | none => false
  | some b => b

/-- The capacity of the vote channel created by `Base.abortStart`:
`make(chan bool, len(t.listResources()))`. -/
def abortChanCapacity (rs : List Driver) : Nat :=
  rs.length

/-- The multiset of votes sent on the channel, one per spawned worker
goroutine (`for _, r := range t.listResources() { go t.abortWorker(...) }`),
listed here in resource order. -/
def abortVotes (rs : List Driver) : List Bool :=
  rs.map abortWorkerVote

/-- The collection loop of `Base.abortStart`:
`for range t.listResources() { ret = ret || <-q }` — it receives one vote
per listed resource and ors them together. -/
def abortCollect (votes : List Bool) : Bool :=
  votes.foldl (fun ret q => ret || q) false

/-- `Base.abortStart`: spawn one `abortWorker` per resource, wait, or the
votes together; return the error `"abort start"` iff some vote was true. -/
def abortStart (rs : List Driver) : Option String :=
  if abortCollect (abortVotes rs) then some "abort start" else none

/-- `Base.masterStart`: walk the resources in list order, calling
`r.Start()` on each; stop at the first error and return it.  The first
component records, in invocation order, the `rid` of every resource whose
`Start` method was invoked (the source logs `"start"` for exactly
these, just before the call). -/
def masterStart : List Driver → List String × Option String
  | [] => ([], none)
  | r :: rest =>
    match r.startResult with
    | some e => ([r.rid], some e)
    | none =>
      let (tr, res) := masterStart rest
      (r.rid :: tr, res)

/-- `Base.slaveStart`: always returns `nil`. -/
def slaveStart (_rs : List Driver) : Option String :=
  none

/-- `Base.lockedStart`: `abortStart`, then `masterStart`, then
`slaveStart`, each short-circuiting on error.  The first component is the
list of resources whose `Start` method was invoked; `abortStart` and
`slaveStart` invoke none. -/
def lockedStart (rs : List Driver) : List String × Option String :=
  match abortStart rs with
  | some e => ([], some e)
  | none =>
    match masterStart rs with
    | (tr, some e) => (tr, some e)
    | (tr, none) => (tr, slaveStart rs)

/-! ## `core/object/selection.go` -/

/-- `path.T`: an object path (name, namespace, kind). -/
structure Path where
  name : String
  namespace' : String
  kind : String
deriving Repr, DecidableEq

/-- A Go slice, which is either `nil` or holds a list of elements; Go
code distinguishes a nil slice from a non-nil empty one. -/
inductive Slice (α : Type) where
  | nil : Slice α
  | mk : List α → Slice α
deriving Repr, DecidableEq

/-- The element list of a slice (a nil slice has no elements). -/
def Slice.toList {α : Type} : Slice α → List α
  | .nil => []
  | .mk l => l

/-- `ActionResult` (declared outside the given sources; fields per the
specification's data model and per the two sends in `Selection.Action`):
the object path, the returned value if any, an error, and the
recovered-panic payload if the dispatched method crashed. -/
structure ActionResult where
  path : Path
  value : Option String
  err : Option String
  panic' : Option String
deriving Repr, DecidableEq

/-- The observable behaviour of `fn.Call(fa)[0].Interface().(ActionResult)`
on one object handle: either the method returns an `ActionResult`
normally, or the call panics with some payload (which also covers
`reflect.Value.Call` on a method that does not exist, and a failing type
assertion). -/
inductive Outcome where
  | ret : ActionResult → Outcome
  | panicked : String → Outcome
deriving Repr, DecidableEq

/-- The result of `t.API` resolution inside `Selection.daemonExpand`:
`none` models `t.API.Requester == nil`; `some r` models a configured API
whose `handle.Do()` either fails with an error or returns a body that
unmarshals to a path list. -/
def ApiResult : Type :=
  Option (Except String (List Path))

/-- `Selection`: a selector expression together with the daemon API used
to expand it (the API call's behaviour is carried directly, since the
requester is an external collaborator). -/
structure Selection where
  selectorExpression : String
  api : ApiResult

/-- `Selection.daemonExpand`: with no requester, return an empty non-nil
slice and no error; otherwise perform the request, propagating its error
with a nil slice, or unmarshalling its body into the (non-nil) list. -/
def Selection.daemonExpand (t : Selection) : Slice Path × Option String :=
  match t.api with
  | none => (.mk [], none)
  | some (.error e) => (.nil, some e)
  | some (.ok l) => (.mk l, none)

/-- `Selection.Expand`: resolve the selector through `daemonExpand`; on
error replace the result with a fresh empty (non-nil) slice. -/
def Selection.Expand (t : Selection) : Slice Path :=
  match t.daemonExpand with
  | (l, none) => l
  | (_, some _) => .mk []

/-- The body of the goroutine dispatched by `Selection.Action` for one
object: a normal return sends the returned `ActionResult` on the channel;
a recovered panic sends `ActionResult{Path: path, Panic: r}` instead. -/
def runActionOn (p : Path) : Outcome → ActionResult
  | .ret ar => ar
  | .panicked r => { path := p, value := none, err := none, panic' := some r }

/-- The dispatch-and-collect loop of `Selection.Action` over a resolved
path list: for each path, `path.NewObject()` is modelled by
`newObject p` — `none` is a nil handle, skipped with `continue`; `some o`
carries the behaviour of calling the named action method on that handle.
One goroutine is dispatched per non-nil handle and one result is
collected per dispatched goroutine; the collected results are listed
here in dispatch order (the channel delivers them in completion order,
which the dispatcher does not constrain). -/
def actionLoop (newObject : Path → Option Outcome) (paths : List Path) :
    List ActionResult :=
  paths.filterMap fun p => (newObject p).map (runActionOn p)

/-- `Selection.Action`: expand the selection, then dispatch the action
over every resolved path and collect one result per dispatched
goroutine. -/
def Selection.Action (t : Selection) (newObject : Path → Option Outcome) :
    List ActionResult :=
  actionLoop newObject t.Expand.toList

/-- The capacity of the result channel of `Selection.Action`:
`make(chan ActionResult, len(paths))`. -/
def actionChanCapacity (t : Selection) : Nat :=
  t.Expand.toList.length

/-! ## `util/command` (the process executor)

Byte slices are `List Nat`; the newline separator byte `'\n'` is `10`.
A command spec is summarised by the configuration fields that
determine which helper goroutines `T.Start` launches. -/

/-- `stripFistByte`: `if len(b) > 1 { return b[1:] }; return b`. -/
def stripFistByte (b : List Nat) : List Nat :=
  if b.length > 1 then b.drop 1 else b

/-- The stdout buffer accumulated by the stdout capture goroutine of
`T.Start` when `bufferStdout` is set: for each scanned line `s`,
`t.stdout = append(t.stdout, append([]byte("\n"), s.Bytes()...)...)`,
so each line lands prefixed by the separator byte.  `lines` are the
lines the subprocess wrote (as split by the scanner, separators
removed), in order. -/
def bufferOfLines (lines : List (List Nat)) : List Nat :=
  lines.foldl (fun acc s => acc ++ (10 :: s)) []

/-- The mutable run state that `Stdout`/`Stderr` read. -/
structure CmdState where
  stdout : List Nat
  stderr : List Nat
deriving Repr, DecidableEq

/-- `T.Stdout`: `return stripFistByte(t.stdout)`. -/
def CmdState.Stdout (t : CmdState) : List Nat :=
  stripFistByte t.stdout

/-- `T.Stderr`: `return stripFistByte(t.stderr)`. -/
def CmdState.Stderr (t : CmdState) : List Nat :=
  stripFistByte t.stderr

/-- `T.Stdout` after a `Run()` in which the subprocess wrote `lines` to
stdout and stdout buffering was configured. -/
def stdoutAfterRun (lines : List (List Nat)) : List Nat :=
  stripFistByte (bufferOfLines lines)

/-- The configuration fields of a command spec `T` that decide which
helper goroutines `T.Start` appends to `t.goroutine`. -/
structure CmdSpec where
  stdoutLogEnabled : Bool
  bufferStdout : Bool
  hasOnStdoutLine : Bool
  stderrLogEnabled : Bool
  bufferStderr : Bool
  hasOnStderrLine : Bool
  hasTimeout : Bool
deriving Repr, DecidableEq

/-- `T.Start` appends a stdout capture goroutine iff
`t.stdoutLogLevel != zerolog.Disabled || t.bufferStdout || t.onStdoutLine != nil`. -/
def CmdSpec.stdoutTask (t : CmdSpec) : Bool :=
  t.stdoutLogEnabled || t.bufferStdout || t.hasOnStdoutLine

/-- `T.Start` appends a stderr capture goroutine iff
`t.stderrLogLevel != zerolog.Disabled || t.bufferStderr || t.onStderrLine != nil`. -/
def CmdSpec.stderrTask (t : CmdSpec) : Bool :=
  t.stderrLogEnabled || t.bufferStderr || t.hasOnStderrLine

/-- The number of stream-capture goroutines `T.Start` appends. -/
def CmdSpec.streamTasks (t : CmdSpec) : Nat :=
  (if t.stdoutTask then 1 else 0) + (if t.stderrTask then 1 else 0)

/-- `len(t.goroutine)` after `T.Start`: the stream-capture goroutines
plus, when `t.timeout > 0`, the deadline goroutine.  All of them are
started once `cmd.Start()` succeeds. -/
def CmdSpec.goroutineCount (t : CmdSpec) : Nat :=
  t.streamTasks + (if t.hasTimeout then 1 else 0)

/-- `t.cancel != nil` after `T.Start`: `cancel` is assigned only inside
the `t.timeout > 0` branch. -/
def CmdSpec.cancelSet (t : CmdSpec) : Bool :=
  t.hasTimeout

/-- The number of completion signals `T.Wait` receives from `t.done`
before calling `cmd.Wait()`:
`waitCount := len(t.goroutine); if t.cancel != nil { waitCount = waitCount - 1 }`. -/
def CmdSpec.waitCount (t : CmdSpec) : Nat :=
  t.goroutineCount - (if t.cancelSet then 1 else 0)

/-- The blocking events of `T.Wait`, in program order: one receive from
`t.done` per loop iteration, then the call to the process-wait
primitive `cmd.Wait()`. -/
inductive WaitEvent where
  | recvDone : WaitEvent
  | procWait : WaitEvent
deriving Repr, DecidableEq

/-- The trace of blocking events performed by `T.Wait`. -/
def CmdSpec.waitTrace (t : CmdSpec) : List WaitEvent :=
  List.replicate t.waitCount .recvDone ++ [.procWait]

/-! ## `util/statusbus` (the status bus)

The implementation of package `statusbus` is not among the given source
files — only its unit tests are — so the bus is modelled from the
specification and checked against the behaviour those tests assert. -/

/-- The enumerated status values of `core/status`. -/
inductive Status where
  | undef | up | down | warn | standbyUp | standbyDown | notApplicable
deriving Repr, DecidableEq

/-- The fail-fast lifecycle errors of the bus, as named by its tests:
`ErrorNeedStart` ("need start") and `ErrorStarted` ("already started"). -/
inductive BusError where
  | needStart : BusError
  | alreadyStarted : BusError
deriving Repr, DecidableEq

/-- Modelled from the spec: the `statusbus.T` state (its implementation
is missing from the sources) — a started/stopped lifecycle tag plus a
single mapping from `(object path, resource id)` to the last posted
status, mutated only under the bus's internal lock. -/
structure StatusBus where
  started : Bool
  entries : List ((Path × String) × Status)
deriving Repr, DecidableEq

/-- The zero value `T{}` of the bus: not started, empty mapping. -/
def StatusBus.new : StatusBus :=
  { started := false, entries := [] }

/-- Modelled from the spec: `Start()` — calling it on an already-started
bus fails fast with the "already started" error; otherwise it marks the
bus started. -/
def StatusBus.Start (b : StatusBus) : Except BusError StatusBus :=
  if b.started then .error .alreadyStarted
  else .ok { b with started := true }

/-- Modelled from the spec: `Stop()` — releases the cache and is safe to
call even if the bus was never started. -/
def StatusBus.Stop (_b : StatusBus) : StatusBus :=
  StatusBus.new

/-- Modelled from the spec: `Post(objectPath, resourceID, status,
pending)` — an upsert of the mapping; invoked while the bus is not
started it fails fast with the "need start" error instead of writing. -/
def StatusBus.Post (b : StatusBus) (p : Path) (rid : String) (st : Status)
    (_pending : Bool) : Except BusError StatusBus :=
  if b.started then
    .ok { b with entries := ((p, rid), st) :: b.entries.filter (fun kv => kv.1 ≠ (p, rid)) }
  else .error .needStart

/-- Modelled from the spec: `Get(objectPath, resourceID)` — invoked while
the bus is not started it fails fast with the "need start" error instead
of returning a status; otherwise it returns the last posted status for
the key, and `Undef` for an absent key. -/
def StatusBus.Get (b : StatusBus) (p : Path) (rid : String) :
    Except BusError Status :=
  if b.started then
    .ok (match b.entries.find? (fun kv => kv.1 = (p, rid)) with
      | some kv => kv.2
      | none => .undef)
  else .error .needStart

/-! ## Concrete example data (used by the witness theorems) -/

/-- A sample object path `root/svc/svc1`. -/
def demoPath1 : Path := { name := "svc1", namespace' := "root", kind := "svc" }

/-- A sample object path `root/svc/svc2`. -/
def demoPath2 : Path := { name := "svc2", namespace' := "root", kind := "svc" }

/-- A sample selection whose daemon expansion resolves to two paths. -/
def demoSel : Selection :=
  { selectorExpression := "*", api := some (.ok [demoPath1, demoPath2]) }

/-- A sample normally returned action result for `demoPath1`. -/
def demoOkResult : ActionResult :=
  { path := demoPath1, value := some "started", err := none, panic' := none }

/-- A sample handle resolver: `demoPath1`'s action returns normally,
`demoPath2`'s action panics, every other path has a nil handle. -/
def demoNewObject (p : Path) : Option Outcome :=
  if p = demoPath1 then some (.ret demoOkResult)
  else if p = demoPath2 then some (.panicked "boom")
  else none

/-- A sample object path of a kind no handle constructor knows:
`demoNewObject` resolves it to a nil handle. -/
def demoPath3 : Path := { name := "vol1", namespace' := "root", kind := "vol" }

/-- A sample selection resolving to three paths, the middle one with a
nil handle. -/
def demoSel3 : Selection :=
  { selectorExpression := "*",
    api := some (.ok [demoPath1, demoPath3, demoPath2]) }

/-- A sample selection whose daemon request fails. -/
def demoFailSel : Selection :=
  { selectorExpression := "*", api := some (.error "daemon down") }

/-! ## Helper lemmas -/

/-- Folding `||` over a list of booleans yields the accumulator or-ed
with "some element is true". -/
lemma foldl_or_eq (b : Bool) (l : List Bool) :
    l.foldl (fun ret q => ret || q) b = (b || l.any id) := by
  induction l generalizing b with
  | nil => simp
  | cons x xs ih => simp [List.foldl_cons, ih, Bool.or_assoc]

/-- The abort collection loop reports true iff some listed resource
voted true. -/
lemma abortCollect_votes (rs : List Driver) :
    abortCollect (abortVotes rs) = rs.any abortWorkerVote := by
  induction rs with
  | nil => simp [abortCollect, abortVotes]
  | cons r rest ih =>
    simp only [abortCollect, abortVotes, List.map_cons, List.foldl_cons,
      List.any_cons] at ih ⊢
    simp [foldl_or_eq] at ih ⊢
    rw [ih]

/-- `abortStart` returns the `"abort start"` error iff some resource's
vote is true. -/
lemma abortStart_eq_some_iff (rs : List Driver) :
    abortStart rs = some "abort start" ↔ ∃ r ∈ rs, abortWorkerVote r = true := by
  simp [abortStart, abortCollect_votes, List.any_eq_true]

/-- When every path's handle resolves, the dispatch loop collects one
result per path. -/
lemma actionLoop_length (f : Path → Option Outcome) (l : List Path)
    (h : ∀ p ∈ l, (f p).isSome) :
    (actionLoop f l).length = l.length := by
  induction l with
  | nil => rfl
  | cons p ps ih =>
    have hp : (f p).isSome := h p (List.Mem.head ps)
    obtain ⟨o, ho⟩ := Option.isSome_iff_exists.mp hp
    have hps : ∀ q ∈ ps, (f q).isSome := fun q hq => h q (List.mem_cons_of_mem p hq)
    have hlen := ih hps
    simp only [actionLoop, List.filterMap_cons, ho, Option.map_some',
      List.length_cons]
    simp only [actionLoop] at hlen
    rw [hlen]

/-- When every path's handle resolves, the `i`-th collected result is the
result of running the `i`-th path's action. -/
lemma actionLoop_getElem (f : Path → Option Outcome) (l : List Path)
    (h : ∀ p ∈ l, (f p).isSome) (i : Nat) (hi : i < l.length) (o : Outcome)
    (ho : f l[i] = some o) :
    (actionLoop f l)[i]? = some (runActionOn l[i] o) := by
  induction l generalizing i with
  | nil => exact absurd hi (by simp)
  | cons p ps ih =>
    have hp : (f p).isSome := h p (List.Mem.head ps)
    obtain ⟨o0, ho0⟩ := Option.isSome_iff_exists.mp hp
    have hps : ∀ q ∈ ps, (f q).isSome := fun q hq => h q (List.mem_cons_of_mem p hq)
    cases i with
    | zero =>
      simp only [List.getElem_cons_zero] at ho ⊢
      simp only [actionLoop, List.filterMap_cons, ho, Option.map_some']
      simp
    | succ k =>
      have hk : k < ps.length := by simpa [Nat.succ_lt_succ_iff] using hi
      have := ih hps k hk (by simpa using ho)
      simp only [actionLoop, List.filterMap_cons, ho0, Option.map_some'] at this ⊢
      simpa using this

/-- Appending separator-prefixed lines with a left fold flattens them
after the initial accumulator. -/
lemma foldl_buffer_append (lines : List (List Nat)) (init : List Nat) :
    lines.foldl (fun acc s => acc ++ (10 :: s)) init =
      init ++ (lines.map (fun s => 10 :: s)).flatten := by
  induction lines generalizing init with
  | nil => simp
  | cons l ls ih => simp [List.foldl_cons, ih, List.append_assoc]

/-- The accumulated stdout buffer is the flattening of the
separator-prefixed lines. -/
lemma bufferOfLines_eq (lines : List (List Nat)) :
    bufferOfLines lines = (lines.map (fun s => 10 :: s)).flatten := by
  simpa using foldl_buffer_append lines []

/-- Joining a nonempty list of lines with the separator equals the head
followed by the flattened separator-prefixed tail. -/
lemma intercalate_sep_eq (l : List Nat) (rest : List (List Nat)) :
    List.intercalate [10] (l :: rest) =
      l ++ (rest.map (fun s => 10 :: s)).flatten := by
  induction rest generalizing l with
  | nil => simp [List.intercalate]
  | cons r rs ih =>
    simp only [List.intercalate, List.intersperse_cons_cons, List.flatten] at ih ⊢
    simp at ih ⊢
    rw [ih]

/-! ## Claim theorems -/

/-- C1: if at least one resource implementing the Abort capability
returns true from `Abort` during the pre-flight check, `lockedStart`
returns the error `"abort start"` and no resource's `Start` method is
invoked (the invocation trace is empty: `masterStart` is not reached). -/
theorem lockedStart_aborts_without_starting (rs : List Driver) (r : Driver)
    (hmem : r ∈ rs) (haborter : r.aborter = some true) :
    lockedStart rs = ([], some "abort start") := by
  have hvote : abortWorkerVote r = true := by
    simp [abortWorkerVote, haborter]
  have habort : abortStart rs = some "abort start" :=
    (abortStart_eq_some_iff rs).mpr ⟨r, hmem, hvote⟩
  simp [lockedStart, habort]

/-- Witness for C1: a two-resource object whose second resource vetoes;
`lockedStart` fails with `"abort start"` and starts nothing. -/
theorem lockedStart_aborts_without_starting_witness :
    lockedStart [⟨"disk#0", none, none⟩, ⟨"app#1", some true, none⟩] =
      ([], some "abort start") :=
  lockedStart_aborts_without_starting _ ⟨"app#1", some true, none⟩
    (by decide) rfl

/-- C2: `masterStart` invokes `Start` on the resources strictly in the
caller-supplied list order; if the resource at position `i` is the first
whose `Start` errors, `masterStart` returns that error and the
invocation trace is exactly the rids of positions `0..i` in order — no
resource after position `i` is started. -/
theorem masterStart_stops_at_first_error (rs : List Driver) (i : Nat)
    (e : String) (hi : i < rs.length)
    (hfail : rs[i].startResult = some e)
    (hpre : ∀ j (hj : j < rs.length), j < i → rs[j].startResult = none) :
    masterStart rs = ((rs.take (i + 1)).map Driver.rid, some e) := by
  induction rs generalizing i with
  | nil => exact absurd hi (by simp)
  | cons r rest ih =>
    cases i with
    | zero =>
      simp only [List.getElem_cons_zero] at hfail
      simp [masterStart, hfail]
    | succ k =>
      have hr : r.startResult = none := by
        have := hpre 0 (by simp) (Nat.succ_pos k)
        simpa using this
      have hk : k < rest.length := by
        simpa [Nat.succ_lt_succ_iff] using hi
      have hfail' : rest[k].startResult = some e := by
        simpa using hfail
      have hpre' : ∀ j (hj : j < rest.length), j < k → rest[j].startResult = none := by
        intro j hj hjk
        have := hpre (j + 1) (by simpa [Nat.succ_lt_succ_iff] using hj)
          (Nat.succ_lt_succ hjk)
        simpa using this
      have := ih k hk hfail' hpre'
      simp [masterStart, hr, this]

/-- Witness for C2: `disk#0` starts cleanly, `app#1` fails with `"E"`;
the trace is `[disk#0, app#1]` and the error is `"E"`. -/
theorem masterStart_stops_at_first_error_witness :
    masterStart [⟨"disk#0", none, none⟩, ⟨"app#1", none, some "E"⟩] =
      (["disk#0", "app#1"], some "E") :=
  masterStart_stops_at_first_error
    [⟨"disk#0", none, none⟩, ⟨"app#1", none, some "E"⟩] 1 "E"
    (by decide) (by decide) (by decide)

/-- C10: the abort check sends one vote per listed resource (resources
not implementing Abort vote false), the vote channel's capacity equals
the resource count (so no send blocks), the collection loop consumes one
vote per resource, and `abortStart` errors iff at least one vote is
true. -/
theorem abortStart_vote_accounting (rs : List Driver) :
    (abortVotes rs).length = rs.length ∧
    abortChanCapacity rs = rs.length ∧
    (abortVotes rs).length ≤ abortChanCapacity rs ∧
    (∀ r ∈ rs, r.aborter = none → abortWorkerVote r = false) ∧
    (abortStart rs = some "abort start" ↔ ∃ r ∈ rs, abortWorkerVote r = true) ∧
    (abortStart rs = none ↔ ∀ r ∈ rs, abortWorkerVote r = false) := by
  refine ⟨by simp [abortVotes], rfl, by simp [abortVotes, abortChanCapacity],
    ?_, abortStart_eq_some_iff rs, ?_⟩
  · intro r _ hr
    simp [abortWorkerVote, hr]
  · constructor
    · intro h r hmem
      by_contra hne
      have : abortStart rs = some "abort start" :=
        (abortStart_eq_some_iff rs).mpr ⟨r, hmem, by simpa using hne⟩
      rw [h] at this
      exact Option.noConfusion this
    · intro h
      simp only [abortStart, abortCollect_votes]
      have : rs.any abortWorkerVote = false := by
        simp only [List.any_eq_false]
        intro r hmem
        simp [h r hmem]
      simp [this]

/-- C3: when every resolved path yields a non-nil handle,
`Selection.Action` collects exactly one result per path; the result at
position `i` is the dispatched action's result there — the recovered
panic payload (in the `Panic` field, with no normally returned value)
when that action panicked, and the normally returned `ActionResult`
otherwise. -/
theorem action_one_result_per_object (t : Selection)
    (f : Path → Option Outcome) (i : Nat) (o : Outcome)
    (hall : ∀ p ∈ t.Expand.toList, (f p).isSome)
    (hi : i < t.Expand.toList.length)
    (ho : f (t.Expand.toList.get ⟨i, hi⟩) = some o) :
    (t.Action f).length = t.Expand.toList.length ∧
    (t.Action f)[i]? = some (runActionOn (t.Expand.toList.get ⟨i, hi⟩) o) ∧
    (match o with
     | .panicked r => (t.Action f)[i]? =
         some (ActionResult.mk (t.Expand.toList.get ⟨i, hi⟩) none none (some r))
     | .ret ar => (t.Action f)[i]? = some ar) := by
  have h1 := actionLoop_length f t.Expand.toList hall
  have h2 := actionLoop_getElem f t.Expand.toList hall i hi o ho
  refine ⟨h1, h2, ?_⟩
  cases o with
  | ret ar => simpa [runActionOn] using h2
  | panicked r => simpa [runActionOn] using h2

/-- Witness for C3: over `demoSel`'s two resolved objects, the action on
the second panics with payload `"boom"`; the batch still has two
results and the second carries the payload in its `Panic` field. -/
theorem action_one_result_per_object_witness :
    (demoSel.Action demoNewObject).length = demoSel.Expand.toList.length ∧
    (demoSel.Action demoNewObject)[1]? =
      some (runActionOn demoPath2 (.panicked "boom")) ∧
    (demoSel.Action demoNewObject)[1]? =
      some { path := demoPath2, value := none, err := none,
             panic' := some "boom" } :=
  action_one_result_per_object demoSel demoNewObject 1 (.panicked "boom")
    (by decide) (by decide) (by decide)

/-- C4: a resolved path whose handle is nil is skipped silently — the
batch result of `Selection.Action` is exactly the dispatch loop's result
over the remaining paths, so the skipped object contributes no
`ActionResult` and does not fail the batch. -/
theorem action_skips_nil_handle (f : Path → Option Outcome) (p : Path)
    (l1 l2 : List Path) (t : Selection)
    (hnil : f p = none)
    (ht : t.Expand = Slice.mk (l1 ++ p :: l2)) :
    t.Action f = actionLoop f (l1 ++ l2) := by
  simp only [Selection.Action, ht, Slice.toList, actionLoop,
    List.filterMap_append, List.filterMap_cons, hnil, Option.map_none']

/-- Witness for C4: `demoSel3` resolves to three paths whose middle one
(`demoPath3`) has a nil handle; the batch equals the dispatch over the
other two. -/
theorem action_skips_nil_handle_witness :
    demoSel3.Action demoNewObject =
      actionLoop demoNewObject ([demoPath1] ++ [demoPath2]) :=
  action_skips_nil_handle demoNewObject demoPath3 [demoPath1] [demoPath2]
    demoSel3 (by decide) (by decide)

/-- C7: when the daemon request behind `daemonExpand` fails,
`Selection.Expand` returns an empty non-nil slice instead of surfacing
the error, and the batch action over that selection yields zero
results. -/
theorem expand_empty_on_daemon_error (t : Selection) (e : String)
    (f : Path → Option Outcome) (h : t.api = some (.error e)) :
    t.daemonExpand = (Slice.nil, some e) ∧
    t.Expand = Slice.mk [] ∧
    t.Action f = [] := by
  refine ⟨?_, ?_, ?_⟩ <;>
    simp [Selection.daemonExpand, Selection.Expand, Selection.Action,
      actionLoop, Slice.toList, h]

/-- Witness for C7: a selection whose daemon request fails with
`"daemon down"` expands to the empty non-nil slice and its batch is
empty. -/
theorem expand_empty_on_daemon_error_witness :
    demoFailSel.daemonExpand = (Slice.nil, some "daemon down") ∧
    demoFailSel.Expand = Slice.mk [] ∧
    demoFailSel.Action demoNewObject = [] :=
  expand_empty_on_daemon_error demoFailSel "daemon down" demoNewObject rfl

/-- Counterexample to C5 as stated: when the subprocess wrote exactly
one empty line, the buffer is the single sentinel byte, which
`stripFistByte` leaves in place, so `Stdout()` is `"\n"` while the lines
joined by the internal separator are empty. -/
theorem stdout_one_empty_line_counterexample :
    stdoutAfterRun [[]] ≠ List.intercalate [10] [[]] := by decide

/-- C5 as amended: for every run with buffered stdout, `Stdout()` equals
the subprocess's written lines joined by the internal separator byte
with the leading sentinel stripped, except when the subprocess wrote
exactly one empty line — then the one-byte buffer (the sentinel alone)
is returned unchanged. -/
theorem stdout_joined_lines (lines : List (List Nat)) (h : lines ≠ [[]]) :
    stdoutAfterRun lines = List.intercalate [10] lines := by
  cases lines with
  | nil => rfl
  | cons l rest =>
    have hbuf : bufferOfLines (l :: rest) =
        (10 :: l) ++ (rest.map (fun s => 10 :: s)).flatten := by
      simp [bufferOfLines_eq]
    have hlen : ((10 :: l) ++ (rest.map (fun s => 10 :: s)).flatten).length > 1 := by
      rcases rest with _ | ⟨r, rs⟩
      · cases l with
        | nil => exact absurd rfl h
        | cons a as => simp
      · simp
    rw [stdoutAfterRun, hbuf, stripFistByte, if_pos hlen, intercalate_sep_eq]
    simp

/-- Witness for C5 as amended: the subprocess wrote the line `"h"` then
an empty line; `Stdout()` is `"h\n"`, the two lines joined by the
separator. -/
theorem stdout_joined_lines_witness :
    stdoutAfterRun [[104], []] = List.intercalate [10] [[104], []] :=
  stdout_joined_lines [[104], []] (by decide)

/-- C9: on a buffer of at most one byte (a nil unconfigured buffer, or
the lone sentinel of a single empty line) `Stdout()` and `Stderr()`
return the buffer unchanged; the leading byte is stripped exactly when
the buffer holds at least two bytes. -/
theorem strip_only_long_buffers (t : CmdState) (b : List Nat)
    (h1 : t.stdout.length ≤ 1) (h2 : t.stderr.length ≤ 1)
    (hb : 1 < b.length) :
    t.Stdout = t.stdout ∧ t.Stderr = t.stderr ∧
    stripFistByte b = b.drop 1 := by
  have n1 : ¬ t.stdout.length > 1 := by omega
  have n2 : ¬ t.stderr.length > 1 := by omega
  exact ⟨by simp [CmdState.Stdout, stripFistByte, n1],
    by simp [CmdState.Stderr, stripFistByte, n2],
    by simp [stripFistByte, hb]⟩

/-- Witness for C9: the run state whose stdout buffer is the lone
sentinel byte and whose stderr buffer is nil is returned unchanged,
while a two-byte buffer is stripped. -/
theorem strip_only_long_buffers_witness :
    (CmdState.mk [10] []).Stdout = [10] ∧
    (CmdState.mk [10] []).Stderr = [] ∧
    stripFistByte [10, 104] = [104] :=
  strip_only_long_buffers (CmdState.mk [10] []) [10, 104]
    (by decide) (by decide) (by decide)

/-- C6: `Wait` receives completion signals from `done` and only then
calls the process-wait primitive; the number of signals consumed is the
number of started helper goroutines when no deadline is configured and
that number minus one when the deadline goroutine was started — in both
cases exactly one signal per started stream-capture goroutine. -/
theorem wait_signal_accounting (t : CmdSpec) :
    t.waitCount =
      (if t.hasTimeout then t.goroutineCount - 1 else t.goroutineCount) ∧
    t.waitCount = t.streamTasks ∧
    t.waitTrace =
      List.replicate t.streamTasks WaitEvent.recvDone ++ [WaitEvent.procWait] := by
  have hw : t.waitCount = t.streamTasks := by
    cases h : t.hasTimeout <;>
      simp [CmdSpec.waitCount, CmdSpec.goroutineCount, CmdSpec.cancelSet, h]
  refine ⟨?_, hw, ?_⟩
  · cases h : t.hasTimeout <;>
      simp [CmdSpec.waitCount, CmdSpec.cancelSet, h]
  · rw [CmdSpec.waitTrace, hw]

/-- C8: posting to or reading from a bus that is not started fails fast
with the "need start" error instead of touching the mapping, and
starting a bus that is already started — in particular one a prior
`Start` just returned — fails fast with the "already started" error. -/
theorem statusbus_fail_fast (b bs b0 b1 : StatusBus)
    (hb : b.started = false) (hbs : bs.started = true)
    (h01 : b0.Start = .ok b1)
    (p : Path) (rid : String) (st : Status) (pending : Bool) :
    b.Post p rid st pending = Except.error BusError.needStart ∧
    b.Get p rid = Except.error BusError.needStart ∧
    bs.Start = Except.error BusError.alreadyStarted ∧
    b1.Start = Except.error BusError.alreadyStarted := by
  have hb1 : b1.started = true := by
    by_cases h : b0.started
    · simp [StatusBus.Start, h] at h01
    · simp only [StatusBus.Start, if_neg h, Except.ok.injEq] at h01
      rw [← h01]
  exact ⟨by simp [StatusBus.Post, hb], by simp [StatusBus.Get, hb],
    by simp [StatusBus.Start, hbs], by simp [StatusBus.Start, hb1]⟩

/-- Witness for C8: on the zero-value bus, `Post` and `Get` fail with
"need start"; after one successful `Start`, a second `Start` fails with
"already started". -/
theorem statusbus_fail_fast_witness :
    StatusBus.new.Post demoPath1 "app#1" Status.warn false =
      Except.error BusError.needStart ∧
    StatusBus.new.Get demoPath1 "app#1" = Except.error BusError.needStart ∧
    (StatusBus.mk true []).Start = Except.error BusError.alreadyStarted ∧
    (StatusBus.mk true []).Start = Except.error BusError.alreadyStarted :=
  statusbus_fail_fast StatusBus.new (StatusBus.mk true []) StatusBus.new
    (StatusBus.mk true []) rfl rfl rfl demoPath1 "app#1" Status.warn false

end Omg
